import Mathlib

/-!
Verification model of `src/main.py`, a Telegram Business auto-responder bot.

The Python code is shallowly embedded: Python strings are modelled by Lean
`String` viewed as its list of characters (Python string operations work on
code points, so the character-list view is the faithful one), the PostgreSQL
message log is modelled by an insertion-ordered list of rows (the table's
`message_timestamp` default is monotone in insertion order), the asyncio
debounce tasks and the two in-memory dicts (`debounce_tasks`,
`pending_replies`) are modelled by a state record, and the single-threaded
event loop is modelled by a labelled step relation whose atomic steps are the
handler runs and the task wake/finish points.
-/

/-! ## Python string primitives

Lean core's `String.splitOn`, `String.replace`, `String.toLower`,
`String.startsWith` are implemented with byte-position loops that do not
reduce inside the kernel, so the corresponding Python operations are
re-implemented here over `String.data`.  Each is a direct model of the
CPython behaviour used by `main.py` (all patterns used there are non-empty).
-/

/-- Python truthiness fallback `a or b` for strings (`""` is falsy). -/
def pyOr (a b : String) : String := if a = "" then b else a

/-- Python `str.strip()`: drop whitespace from both ends. -/
def pystrip (s : String) : String :=
  ⟨((s.data.dropWhile Char.isWhitespace).reverse.dropWhile Char.isWhitespace).reverse⟩

/-- Worker for `pySplitOn`; the fuel is the length of the scanned list, which
always suffices, making the recursion structural. -/
def pySplitGo (sep : List Char) : Nat → List Char → List Char → List (List Char)
  | 0, l, acc => [acc.reverse ++ l]
  | _ + 1, [], acc => [acc.reverse]
  | fuel + 1, c :: rest, acc =>
    if sep.isPrefixOf (c :: rest) then
      acc.reverse :: pySplitGo sep fuel (List.drop (sep.length - 1) rest) []
    else
      pySplitGo sep fuel rest (c :: acc)

/-- Python `s.split(sep)` for non-empty `sep`: non-overlapping left-to-right
occurrences, keeping empty chunks. -/
def pySplitOn (s sep : String) : List String :=
  if sep.data = [] then [s]
  else (pySplitGo sep.data s.data.length s.data []).map (fun l => ⟨l⟩)

/-- Python `sep.join(parts)`. -/
def pyIntercalate (sep : String) : List String → String
  | [] => ""
  | a :: rest => rest.foldl (fun acc x => acc ++ sep ++ x) a

/-- Python `s.replace(old, new)` for non-empty `old`
(equal to `new.join(s.split(old))`). -/
def pyReplace (s old new : String) : String := pyIntercalate new (pySplitOn s old)

/-- Does `pat` occur as a contiguous sublist? (executable). -/
def isSubList (pat : List Char) : List Char → Bool
  | [] => pat.isEmpty
  | c :: rest => pat.isPrefixOf (c :: rest) || isSubList pat rest

/-- Python `pat in s`. -/
def containsSubstr (s pat : String) : Bool := isSubList pat.data s.data

/-- Python `s.startswith(pre)`. -/
def pyStartsWith (s pre : String) : Bool := pre.data.isPrefixOf s.data

/-- Python `s[n:]`. -/
def pyDrop (s : String) (n : Nat) : String := ⟨s.data.drop n⟩

/-- Python `s[:n]`. -/
def pyTake (s : String) (n : Nat) : String := ⟨s.data.take n⟩

/-- Python `s.lower()`. -/
def pyLower (s : String) : String := ⟨s.data.map Char.toLower⟩

/-! ## Module constants (src/main.py lines 36-39) -/

def MAX_HISTORY_PER_CHAT : Nat := 700

def DEBOUNCE_DELAY : Nat := 15

def MY_NAME_FOR_HISTORY : String := "киткат"

def META_CONTEXT_END_MARKER : String := "###END_META_CONTEXT###"

/-! ## Telegram message model

Only the fields read by `main.py` are modelled.  Optional string attributes
whose Python value may be `None` or `""` (both falsy, used only through
truthiness) are modelled as `String` with `""` for absent; attributes whose
object identity matters (`from_user`, `reply_to_message`, media objects) are
`Option`s. -/

structure TgUser where
  id : Int
  first_name : String
  full_name : String
deriving DecidableEq

structure TgChat where
  id : Int
  title : String
  first_name : String
  full_name : String
deriving DecidableEq

structure ReplyMsg where
  from_user : Option TgUser
  chat : Option TgChat
  text : String
  caption : String
deriving DecidableEq

structure AudioMeta where
  title : String
  file_name : String
deriving DecidableEq

structure DocMeta where
  file_name : String
deriving DecidableEq

structure StickerMeta where
  emoji : String
deriving DecidableEq

structure TgMessage where
  chat : TgChat
  from_user : Option TgUser
  business_connection_id : Option String
  text : String
  caption : String
  reply_to_message : Option ReplyMsg
  forward_from : Option TgUser
  forward_from_chat : Option TgChat
  forward_from_message_id : Option Int
  forward_sender_name : String
  photo : Bool
  video : Bool
  audio : Option AudioMeta
  voice : Bool
  document : Option DocMeta
  sticker : Option StickerMeta
deriving DecidableEq

/-! ## enrich_message_for_history (src/main.py lines 121-165) -/

/-- The `meta_reply_to` part (lines 126-131). -/
def replyMeta (message : TgMessage) : List String :=
  match message.reply_to_message with
  | some reply_to =>
    let reply_sender_display_name :=
      match reply_to.from_user with
      | some u => pyOr u.first_name (pyOr u.full_name ("User_" ++ toString u.id))
      | none =>
        match reply_to.chat with
        | some c =>
          if c.title ≠ "" then "сообщению_из_чата_" ++ pyReplace c.title " " "_"
          else "собеседнику"
        | none => "собеседнику"
    let replied_message_snippet :=
      pyReplace (pyReplace (pyTake (pyOr reply_to.text (pyOr reply_to.caption "медиа_без_текста")) 30) "\n" " ") ":" ";"
    ["meta_reply_to: " ++ reply_sender_display_name ++
      " (текст_ответа_начинался_с: «" ++ replied_message_snippet ++ "»)"]
  | none => []

/-- The `meta_forwarded_from` part (lines 132-141). -/
def fwdMeta (message : TgMessage) : List String :=
  let fwd_info_str :=
    match message.forward_from with
    | some u => "user_" ++ toString u.id ++ "_(" ++ pyOr u.first_name (pyOr u.full_name "UnknownName") ++ ")"
    | none =>
      match message.forward_from_chat with
      | some c =>
        "chat_" ++ toString c.id ++ "_(" ++ pyOr c.title "UnknownChatTitle" ++ ")" ++
          (match message.forward_from_message_id with
           | some mid => if mid = 0 then "" else "_msg_id_" ++ toString mid
           | none => "")
      | none =>
        if message.forward_sender_name ≠ "" then
          "hidden_sender_(" ++ pyReplace message.forward_sender_name " " "_" ++ ")"
        else ""
  if fwd_info_str ≠ "" then ["meta_forwarded_from: " ++ fwd_info_str] else []

/-- Media detection (lines 142-148): content type and details
(`""` details = Python `None`). -/
def mediaTypeOf (message : TgMessage) : Option (String × String) :=
  if message.photo then some ("photo", "")
  else if message.video then some ("video", "")
  else
    match message.audio with
    | some a => some ("audio", pyOr a.title a.file_name)
    | none =>
      if message.voice then some ("voice_message", "")
      else
        match message.document with
        | some d => some ("document", d.file_name)
        | none =>
          match message.sticker with
          | some st => some ("sticker", st.emoji)
          | none => none

/-- The `meta_content_type` / `meta_media_details` parts (lines 149-151). -/
def mediaMeta (message : TgMessage) : List String :=
  match mediaTypeOf message with
  | some (mt, det) =>
    ["meta_content_type: " ++ mt] ++
      (if det ≠ "" then
        ["meta_media_details: " ++ pyTake (pyReplace (pyReplace det ":" ";") " " "_") 50]
       else [])
  | none => []

/-- Joined meta and text parts, stripped (lines 152-160). -/
def enrichCore (message : TgMessage) : String :=
  let meta_parts :=
    replyMeta message ++ fwdMeta message ++ mediaMeta message ++
      (if message.caption ≠ "" then ["meta_caption: true"] else [])
  let text_parts :=
    if message.caption ≠ "" then [pystrip message.caption]
    else if message.text ≠ "" then [pystrip message.text]
    else []
  let final_parts_for_history :=
    (if meta_parts ≠ [] then [pyIntercalate " " meta_parts] else []) ++
      (if text_parts ≠ [] then [pyIntercalate " " text_parts] else [])
  pystrip (pyIntercalate " " final_parts_for_history)

/-- Model of `enrich_message_for_history` (lines 121-165): always appends the
end-of-meta-context marker. -/
def enrich_message_for_history (message : TgMessage) : String :=
  let enriched_text := enrichCore message
  if enriched_text = "" then
    match mediaTypeOf message with
    | some (mt, _) =>
      "meta_content_type: " ++ mt ++ " (без_текста_или_подписи) " ++ META_CONTEXT_END_MARKER
    | none =>
      "meta_info: [пустое_или_нераспознанное_сообщение]" ++ " " ++ META_CONTEXT_END_MARKER
  else enriched_text ++ " " ++ META_CONTEXT_END_MARKER

/-! ## Message-log persistence (src/main.py lines 93-118)

The table `chat_messages` is modelled as a list of rows in insertion order;
`message_timestamp DESC` on that table is reverse insertion order. -/

structure Row where
  chat_id : Int
  role : String
  content : String
deriving DecidableEq

/-- Model of `update_chat_history` (lines 101-108): skip empty/whitespace text,
otherwise insert a row with the stripped text. -/
def update_chat_history (db : List Row) (chat_id : Int) (role text : String) : List Row :=
  if pystrip text = "" then db
  else db ++ [⟨chat_id, role, pystrip text⟩]

/-- Model of `get_formatted_history` (lines 109-118): the last `MAX_HISTORY_PER_CHAT`
rows for the chat by time (`ORDER BY message_timestamp DESC LIMIT n`),
returned oldest-first as (role, content) pairs. -/
def get_formatted_history (db : List Row) (chat_id : Int) : List (String × String) :=
  let db_rows := ((db.filter (fun r => r.chat_id = chat_id)).reverse).take MAX_HISTORY_PER_CHAT
  (db_rows.reverse).map (fun r => (r.role, r.content))

/-! ## Basic lemmas about the string primitives -/

theorem pystrip_eq_empty_iff (s : String) :
    pystrip s = "" ↔ ∀ c ∈ s.data, c.isWhitespace = true := by
  unfold pystrip
  constructor
  · intro h c hc
    have hdata : ((s.data.dropWhile Char.isWhitespace).reverse.dropWhile Char.isWhitespace).reverse = [] := by
      have := congrArg String.data h
      simpa using this
    rw [List.reverse_eq_nil_iff, List.dropWhile_eq_nil_iff] at hdata
    have hsplit := List.takeWhile_append_dropWhile (p := Char.isWhitespace) (l := s.data)
    rw [← hsplit] at hc
    rcases List.mem_append.mp hc with h1 | h2
    · exact List.mem_takeWhile_imp h1
    · exact hdata c (by simpa using List.mem_reverse.mpr h2)
  · intro h
    have h1 : s.data.dropWhile Char.isWhitespace = [] :=
      List.dropWhile_eq_nil_iff.mpr (fun x hx => h x hx)
    simp [h1]

theorem pystrip_ne_empty_of_mem {s : String} {c : Char}
    (hc : c ∈ s.data) (hw : c.isWhitespace = false) : pystrip s ≠ "" := by
  intro h
  have := (pystrip_eq_empty_iff s).mp h c hc
  rw [hw] at this
  exact Bool.false_ne_true this

theorem append_marker_ne_empty (p : String) : p ++ META_CONTEXT_END_MARKER ≠ "" := by
  intro h
  have hd := congrArg String.data h
  rw [String.data_append] at hd
  have h2 : META_CONTEXT_END_MARKER.data = [] := (List.append_eq_nil.mp hd).2
  exact absurd h2 (by decide)

theorem mem_data_append_marker (p : String) :
    '#' ∈ (p ++ META_CONTEXT_END_MARKER).data := by
  rw [String.data_append]
  exact List.mem_append_right _ (by decide)

/-- Every value `enrich_message_for_history` returns literally ends in the
marker: it is some prefix followed by `META_CONTEXT_END_MARKER`. -/
theorem enrich_message_for_history_shape (m : TgMessage) :
    ∃ p, enrich_message_for_history m = p ++ META_CONTEXT_END_MARKER := by
  simp only [enrich_message_for_history]
  split
  · split
    · exact ⟨_, rfl⟩
    · exact ⟨_, rfl⟩
  · exact ⟨_, rfl⟩

/-! ## Gemini call (src/main.py lines 168-217)

A content entry `{"role": r, "parts": [{"text": t}]}` is modelled as the
pair `(r, t)`.  The outcome of the HTTP call
`gemini_model.generate_content_async` is external input, modelled by
`GenOutcome`: a response object with its list of part texts and optional
prompt feedback, or a raised exception. -/

abbrev GContent := String × String

inductive GenOutcome where
  | success (parts : List String) (prompt_feedback : Option String)
  | raised (msg : String)

/-- Model of `generate_gemini_response` (lines 168-217).  `model_initialized` models
the `if not gemini_model` guard; `outcome` is what the awaited API call
produced.  Returns `none` on exceptions, missing/empty parts, empty text, or
refusal phrases. -/
def generate_gemini_response (model_initialized : Bool)
    (contents_without_system_prompt : List GContent) (system_prompt_to_use : String)
    (outcome : GenOutcome) : Option String :=
  if model_initialized = false then none
  else
    let final_contents :=
      contents_without_system_prompt ++
        (if system_prompt_to_use ≠ "" then
          [("user", "Важное указание по генерации ответа (следовать неукоснительно):\n" ++ system_prompt_to_use)]
         else [])
    if final_contents = [] then none
    else
      match outcome with
      | .raised _ => none
      | .success parts _ =>
        if parts ≠ [] then
          let generated_text := pystrip (String.join parts)
          if generated_text ≠ "" ∧
              containsSubstr (pyLower generated_text) "cannot fulfill" = false ∧
              containsSubstr (pyLower generated_text) "unable to process" = false then
            some generated_text
          else none
        else none

/-- The marker-stripping step applied to a raw Gemini answer
(lines 250-261): keep what follows the last occurrence of the marker,
falling back to the unstripped original if that is empty while the whole
answer was not just the marker.  The calendar-branch copy (lines 304-309)
nests its empty-fallback test outside the marker-found case instead of
inside it; the two computations agree on every value
`generate_gemini_response` can return (a stripped non-empty string), so the
one function models both sites. -/
def sanitize_response (api : String) : String :=
  let parts := pySplitOn api META_CONTEXT_END_MARKER
  if 1 < parts.length then
    let last := pystrip (parts.getLastD "")
    if last = "" ∧ pystrip api ≠ pystrip META_CONTEXT_END_MARKER then api else last
  else pystrip api

/-! ## Prompt assembly (src/main.py lines 229-244 and 274-298)

The config file sections and the wall-clock string are external inputs. -/

structure Config where
  BASE_SYSTEM_PROMPT : String
  MY_CHARACTER_DESCRIPTION : String
  TOOLS_PROMPT : String
  CHAR_DESCRIPTIONS : List (String × String)

/-- Lookup `CHAR_DESCRIPTIONS.get(sender_id_str)` with Python truthiness
(`None` and `""` both fail the `if interlocutor_description:` test). -/
def charDescription (cfg : Config) (sender_id_str : String) : String :=
  ((cfg.CHAR_DESCRIPTIONS.find? (fun p => p.1 = sender_id_str)).map (fun p => p.2)).getD ""

/-- The `context_block_text` of the first request (lines 232-236). -/
def context_block_text (cfg : Config) (sender_name sender_id_str saratov_time_str : String) : String :=
  (if cfg.MY_CHARACTER_DESCRIPTION ≠ "" then
    "Немного информации обо мне (" ++ MY_NAME_FOR_HISTORY ++ "):\n" ++ cfg.MY_CHARACTER_DESCRIPTION ++ "\n\n"
   else "") ++
  (if charDescription cfg sender_id_str ≠ "" then
    "Информация о текущем собеседнике (" ++ sender_name ++ ", ID: " ++ sender_id_str ++ "):\n" ++
      charDescription cfg sender_id_str ++ "\n\n"
   else "") ++
  ("Текущее время в Саратове (где находится Киткат): " ++ saratov_time_str ++ "\n\n")

/-- The `contents_for_gemini` of the first request (lines 230-244): the context
block (marker-terminated) followed by the buffered history. -/
def contents_for_gemini (cfg : Config) (sender_name sender_id_str saratov_time_str : String)
    (current_history : List GContent) : List GContent :=
  (if pystrip (context_block_text cfg sender_name sender_id_str saratov_time_str) ≠ "" then
    [("model", pystrip (context_block_text cfg sender_name sender_id_str saratov_time_str) ++ " " ++ META_CONTEXT_END_MARKER)]
   else []) ++ current_history

/-- The `context_block_text_calendar` block (lines 279-282; the time line differs from
the first request). -/
def context_block_text_calendar (cfg : Config) (sender_name sender_id_str saratov_time_str : String) : String :=
  (if cfg.MY_CHARACTER_DESCRIPTION ≠ "" then
    "Немного информации обо мне (" ++ MY_NAME_FOR_HISTORY ++ "):\n" ++ cfg.MY_CHARACTER_DESCRIPTION ++ "\n\n"
   else "") ++
  (if charDescription cfg sender_id_str ≠ "" then
    "Информация о текущем собеседнике (" ++ sender_name ++ ", ID: " ++ sender_id_str ++ "):\n" ++
      charDescription cfg sender_id_str ++ "\n\n"
   else "") ++
  ("Текущее время в Саратове: " ++ saratov_time_str ++ "\n\n")

/-- The `calendar_intro_text` string (lines 284-288). -/
def calendar_intro_text (calendar_content : String) : String :=
  "Для ответа на вопрос пользователя требуется информация из его расписания.\n" ++
  "Вот предоставленное пользователем расписание:\n------\n" ++ calendar_content ++ "\n------\n" ++
  "Пожалуйста, проанализируй это расписание и текущее время, и ответь на последний вопрос пользователя."

/-- The `contents_for_calendar_gemini` of the second request (lines 274-298). -/
def contents_for_calendar_gemini (cfg : Config)
    (sender_name sender_id_str saratov_time_str calendar_content : String)
    (current_history : List GContent) : List GContent :=
  let system_prompt_for_calendar :=
    if cfg.TOOLS_PROMPT ≠ "" then pystrip (pyReplace cfg.BASE_SYSTEM_PROMPT cfg.TOOLS_PROMPT "")
    else cfg.BASE_SYSTEM_PROMPT
  (if system_prompt_for_calendar ≠ "" then
    [("user", "Новая инструкция (следовать ей):\n" ++ system_prompt_for_calendar)]
   else []) ++
  (if pystrip (context_block_text_calendar cfg sender_name sender_id_str saratov_time_str) ≠ "" then
    [("model", pystrip (context_block_text_calendar cfg sender_name sender_id_str saratov_time_str) ++ " " ++ META_CONTEXT_END_MARKER)]
   else []) ++
  [("user", calendar_intro_text calendar_content ++ " " ++ META_CONTEXT_END_MARKER)] ++
  current_history

/-! ## Bot state

`debounce_tasks` and `pending_replies` are Python dicts, modelled as
association lists with at-most-one entry per key (all writes go through the
`set…`/`erase…` helpers below, which preserve that).  asyncio tasks are
modelled by an append-only arena `tasks`; a task's index is its identity and
`debounce_tasks` maps a chat id to a task index.  `owner_msgs` logs messages
sent to `MY_TELEGRAM_ID` (suggestion previews), `chat_sends` logs messages
sent into business chats via `business_connection_id`, and `preview_edits`
logs `edit_message_text` calls on preview messages. -/

inductive TaskStatus where
  | sleeping
  | processing
  | cancelled
  | done
deriving DecidableEq

structure DTask where
  chat : Int
  sender_name : String
  sender_id_str : String
  business_connection_id : Option String
  status : TaskStatus
deriving DecidableEq

structure PendingReply where
  text : String
  business_connection_id : Option String
  chat_id : Int
deriving DecidableEq

structure BotState where
  tasks : List DTask
  debounce_tasks : List (Int × Nat)
  db : List Row
  pending_replies : List (String × PendingReply)
  owner_msgs : List String
  chat_sends : List (Int × String)
  preview_edits : List String
deriving DecidableEq

def initState : BotState := ⟨[], [], [], [], [], [], []⟩

def lookupTask (m : List (Int × Nat)) (c : Int) : Option Nat :=
  (m.find? (fun p => p.1 = c)).map (fun p => p.2)

def eraseTaskEntry (m : List (Int × Nat)) (c : Int) : List (Int × Nat) :=
  m.filter (fun p => p.1 ≠ c)

def setTaskEntry (m : List (Int × Nat)) (c : Int) (i : Nat) : List (Int × Nat) :=
  (c, i) :: eraseTaskEntry m c

def lookupPending (l : List (String × PendingReply)) (k : String) : Option PendingReply :=
  (l.find? (fun p => p.1 = k)).map (fun p => p.2)

def erasePendingEntry (l : List (String × PendingReply)) (k : String) : List (String × PendingReply) :=
  l.filter (fun p => p.1 ≠ k)

def setPendingEntry (l : List (String × PendingReply)) (k : String) (v : PendingReply) : List (String × PendingReply) :=
  (k, v) :: erasePendingEntry l k

/-- Effect of `task.cancel()`: a live (sleeping or processing) task dies at its next
await point; a finished or already-cancelled task is unaffected. -/
def statusAfterCancel : TaskStatus → TaskStatus
  | .sleeping => .cancelled
  | .processing => .cancelled
  | st => st

def cancelTask : List DTask → Nat → List DTask
  | [], _ => []
  | t :: ts, 0 => { t with status := statusAfterCancel t.status } :: ts
  | t :: ts, Nat.succ n => t :: cancelTask ts n

def setStatus : List DTask → Nat → TaskStatus → List DTask
  | [], _, _ => []
  | t :: ts, 0, st => { t with status := st } :: ts
  | t :: ts, Nat.succ n, st => t :: setStatus ts n st

/-- Model of `debounce_tasks[chat_id].cancel(); debounce_tasks[chat_id] = create_task(...)`
(lines 366-370 and 387-400): cancel the task currently registered for the
chat, if any, then register a fresh sleeping task. -/
def scheduleTask (s : BotState) (chat_id : Int) (sender_name sender_id_str : String)
    (business_connection_id : Option String) : BotState :=
  let tasks1 :=
    match lookupTask s.debounce_tasks chat_id with
    | some i => cancelTask s.tasks i
    | none => s.tasks
  { s with
    tasks := tasks1 ++ [⟨chat_id, sender_name, sender_id_str, business_connection_id, .sleeping⟩],
    debounce_tasks := setTaskEntry s.debounce_tasks chat_id tasks1.length }

/-! ## handle_business_update (src/main.py lines 341-400) -/

def handle_business_update (myId : Int) (s : BotState) (m : TgMessage) : BotState :=
  let enriched_history_text := enrich_message_for_history m
  let chat_id := m.chat.id
  let original_text_from_update := m.text
  match m.from_user with
  | none => s
  | some sender =>
    let sender_id_str := toString sender.id
    let sender_name := pyOr sender.first_name (pyOr sender.full_name ("User_" ++ sender_id_str))
    if sender.id = myId ∧ pyStartsWith original_text_from_update "/v " = true then
      -- /v command (lines 351-372)
      let transcription := pystrip (pyDrop original_text_from_update 3)
      if transcription = "" then s
      else
        let final_voice_text_for_history :=
          "meta_content_type: voice_message (расшифровано_пользователем: " ++ MY_NAME_FOR_HISTORY ++ ") " ++
            transcription ++ " " ++ META_CONTEXT_END_MARKER
        let s1 := { s with db := update_chat_history s.db chat_id "user" final_voice_text_for_history }
        let interlocutor_name := pyOr m.chat.first_name (pyOr m.chat.full_name ("Chat_" ++ toString chat_id))
        scheduleTask s1 chat_id interlocutor_name (toString chat_id) m.business_connection_id
    else if sender.id = myId then
      -- outgoing message (lines 373-383): store as "model", cancel and drop any timer
      let s1 := { s with db := update_chat_history s.db chat_id "model" enriched_history_text }
      match lookupTask s1.debounce_tasks chat_id with
      | some i =>
        { s1 with
          tasks := cancelTask s1.tasks i,
          debounce_tasks := eraseTaskEntry s1.debounce_tasks chat_id }
      | none => s1
    else
      -- incoming message (lines 384-400): store as "user", cancel any previous
      -- timer for this chat and schedule a fresh delayed task
      let s1 := { s with db := update_chat_history s.db chat_id "user" enriched_history_text }
      scheduleTask s1 chat_id sender_name sender_id_str m.business_connection_id

/-! ## process_chat_after_delay (src/main.py lines 221-336) -/

/-- Python `html.escape` with default `quote=True`. -/
def html_escape (s : String) : String :=
  pyReplace (pyReplace (pyReplace (pyReplace (pyReplace s "&" "&amp;") "<" "&lt;") ">" "&gt;") "\"" "&quot;") "\x27" "&#x27;"

/-- Outcome of an awaited `generate_gemini_response(...)` call site: the
call may itself raise (it does as written, see `llm_call_as_written`), or
produce the function's `str | None` return value. -/
inductive LLMRes where
  | raise (msg : String)
  | ret (r : Option String)

abbrev LLMOracle := List GContent → LLMRes

/-- Number of parameters without default values in the definition of
`generate_gemini_response` (src/main.py line 168:
`contents_without_system_prompt` and `system_prompt_to_use`). -/
def generate_gemini_response_required_params : Nat := 2

/-- Number of arguments supplied at both call sites of
`generate_gemini_response` inside `process_chat_after_delay`
(src/main.py lines 247 and 301). -/
def generate_gemini_response_call_args : Nat := 1

/-- The LLM call as the source executes it: both call sites pass one
argument to a function with two required parameters, so CPython raises
`TypeError` at the call, before any request is made. -/
def llm_call_as_written : LLMOracle :=
  fun _ => .raise "TypeError: generate_gemini_response() missing 1 required positional argument: system_prompt_to_use"

/-- Lines 315-330: store the final sanitized response under a fresh UUID in
`pending_replies` and send the owner a preview with the approve button; on
no/empty response only the bookkeeping deletion of the debounce entry
(line 336) runs.  An exception while sending the preview (caught at
line 330) loses the preview but keeps the pending entry. -/
def process_final_response (raw : Option String) (uuid : String) (preview_send_ok : Bool)
    (t : DTask) (s : BotState) : BotState :=
  let chat_id := t.chat
  match raw with
  | some txt =>
    if txt ≠ "" ∧ txt ≠ "!fetchcalc" then
      let s1 := { s with pending_replies := setPendingEntry s.pending_replies uuid ⟨txt, t.business_connection_id, chat_id⟩ }
      let preview_text := pyReplace txt "!NEWMSG!" "\n\n🔚\n\n"
      let reply_text_html :=
        "🤖 <b>Предложенный ответ для чата " ++ html_escape (toString chat_id) ++ "</b> (<i>" ++
          html_escape t.sender_name ++ "</i>):\n──────────────────\n<code>" ++ html_escape preview_text ++ "</code>"
      let s2 := if preview_send_ok then { s1 with owner_msgs := s1.owner_msgs ++ [reply_text_html] } else s1
      { s2 with debounce_tasks := eraseTaskEntry s2.debounce_tasks chat_id }
    else { s with debounce_tasks := eraseTaskEntry s.debounce_tasks chat_id }
  | none => { s with debounce_tasks := eraseTaskEntry s.debounce_tasks chat_id }

/-- Model of `process_chat_after_delay` (lines 221-336) for the debounce task `t`.
`oracle` is the awaited LLM call (both call sites), `saratov_time_str`,
`calendar_content` and `uuid` are the external inputs read during the run.
If the awaited call raises, the exception propagates to the
`delayed_processing` wrapper (lines 392-398), which only logs it: no state
below the call site is touched — in particular line 336 never runs. -/
def process_chat_after_delay (oracle : LLMOracle) (cfg : Config)
    (saratov_time_str calendar_content uuid : String) (preview_send_ok : Bool)
    (t : DTask) (s : BotState) : BotState :=
  let chat_id := t.chat
  let current_history := (get_formatted_history s.db chat_id)
  match oracle (contents_for_gemini cfg t.sender_name t.sender_id_str saratov_time_str current_history) with
  | .raise _ => s
  | .ret gemini_response_from_api =>
    let gemini_response_raw := gemini_response_from_api.map sanitize_response
    if gemini_response_raw = some "!fetchcalc" then
      -- second request with the calendar (lines 265-312)
      match oracle (contents_for_calendar_gemini cfg t.sender_name t.sender_id_str saratov_time_str calendar_content current_history) with
      | .raise _ => s
      | .ret api_calendar =>
        process_final_response (api_calendar.map sanitize_response) uuid preview_send_ok t s
    else
      process_final_response gemini_response_raw uuid preview_send_ok t s

/-! ## button_handler (src/main.py lines 403-440) -/

/-- The list `[part.strip() for part in response_text_raw.split("!NEWMSG!") if part.strip()]`
(line 420). -/
def splitNewMsg (response_text_raw : String) : List String :=
  ((pySplitOn response_text_raw "!NEWMSG!").map pystrip).filter (fun p => p ≠ "")

structure SendResult where
  db : List Row
  sends : List (Int × String)
  sent_count : Nat
  errored : Bool
deriving DecidableEq

/-- The send loop (lines 424-432): send each part in order, store each sent
part in the history DB, and break at the first part whose send raises
(`send_fail i = true`), with no retry. -/
def sendLoop (target_chat : Int) (send_fail : Nat → Bool) :
    Nat → List String → List Row → List (Int × String) → SendResult
  | _, [], db, out => ⟨db, out, 0, false⟩
  | i, part :: rest, db, out =>
    if send_fail i then ⟨db, out, 0, true⟩
    else
      let db1 := update_chat_history db target_chat "model" part
      let r := sendLoop target_chat send_fail (i + 1) rest db1 (out ++ [(target_chat, part)])
      ⟨r.db, r.sends, r.sent_count + 1, r.errored⟩

/-- The error report appended to the preview when a part failed to send
(line 434). -/
def send_error_note (sent_count total : Nat) (send_err : String) : String :=
  "\n\n<b>❌ Ошибка при отправке части " ++ toString (sent_count + 1) ++ "/" ++ toString total ++
    ":</b> " ++ html_escape send_err

/-- Model of `button_handler` (lines 403-440).  `answer_ok` models `query.answer()`
(the handler stops if it raises, line 408); `send_fail i` tells whether
sending part `i` raises, `send_err` is that exception's text;
`preview_text_html` is `query.message.text_html`.  Edits of the preview
message are modelled as delivered (a failing edit is only logged,
lines 437-438). -/
def button_handler (answer_ok : Bool) (send_fail : Nat → Bool) (send_err : String)
    (data preview_text_html : String) (s : BotState) : BotState :=
  if answer_ok = false then s
  else if pyStartsWith data "send_" = false then s
  else
    -- reply_uuid = data.split("_", 1)[1]; as data starts with "send_" this
    -- is data[5:]
    let reply_uuid := pyDrop data 5
    match lookupPending s.pending_replies reply_uuid with
    | none =>
      { s with preview_edits := s.preview_edits ++ [preview_text_html ++ "\n\n<b>⚠️ Ошибка:</b> Ответ не найден."] }
    | some pending_data =>
      let s1 := { s with pending_replies := erasePendingEntry s.pending_replies reply_uuid }
      if pending_data.text = "" then
        { s1 with preview_edits := s1.preview_edits ++ [preview_text_html ++ "\n\n<b>⚠️ Ошибка:</b> Пустой текст."] }
      else
        let message_parts := splitNewMsg pending_data.text
        if message_parts = [] then
          { s1 with preview_edits := s1.preview_edits ++ [preview_text_html ++ "\n\n<b>⚠️ Ошибка:</b> Пустой ответ."] }
        else
          let r := sendLoop pending_data.chat_id send_fail 0 message_parts s1.db s1.chat_sends
          let s2 := { s1 with db := r.db, chat_sends := r.sends }
          let final_text :=
            if r.errored then preview_text_html ++ send_error_note r.sent_count message_parts.length send_err
            else if r.sent_count = message_parts.length then preview_text_html ++ "\n\n<b>✅ Отправлено!</b>"
            else preview_text_html ++ "\n\n<b>⚠️ Неизвестный результат.</b>"
          { s2 with preview_edits := s2.preview_edits ++ [final_text] }

/-! ## Event-loop step relation

One step is an atomic stretch of the single-threaded event loop: a full
handler run, a sleeping task's timer expiring (`wake`), or a woken task
running `process_chat_after_delay` to completion (`finish`).  A task
cancelled before its `finish` step models `asyncio.CancelledError` delivered
at an await point: the wrapper catches it (lines 397, 364) and the task
never reaches the code after that point. -/

inductive Step (myId : Int) (oracle : LLMOracle) (cfg : Config) : BotState → BotState → Prop where
  | recv (s : BotState) (m : TgMessage) :
      Step myId oracle cfg s (handle_business_update myId s m)
  | wake (s : BotState) (i : Nat) (t : DTask)
      (hget : s.tasks[i]? = some t) (hst : t.status = .sleeping) :
      Step myId oracle cfg s { s with tasks := setStatus s.tasks i .processing }
  | finish (s : BotState) (i : Nat) (t : DTask)
      (hget : s.tasks[i]? = some t) (hst : t.status = .processing)
      (saratov_time_str calendar_content uuid : String) (preview_send_ok : Bool) :
      Step myId oracle cfg s
        { process_chat_after_delay oracle cfg saratov_time_str calendar_content uuid preview_send_ok t s
          with tasks := setStatus s.tasks i .done }
  | button (s : BotState) (answer_ok : Bool) (send_fail : Nat → Bool)
      (send_err data preview_text_html : String) :
      Step myId oracle cfg s (button_handler answer_ok send_fail send_err data preview_text_html s)

inductive Reachable (myId : Int) (oracle : LLMOracle) (cfg : Config) : BotState → Prop where
  | init : Reachable myId oracle cfg initState
  | next {s s' : BotState} :
      Reachable myId oracle cfg s → Step myId oracle cfg s s' → Reachable myId oracle cfg s'

/-! ## Association-list and task-arena lemmas -/

theorem find?_filter_ne_key {α β : Type} [DecidableEq α] (l : List (α × β)) (c c' : α)
    (h : c' ≠ c) :
    (l.filter (fun p => p.1 ≠ c)).find? (fun p => p.1 = c') = l.find? (fun p => p.1 = c') := by
  induction l with
  | nil => rfl
  | cons p rest ih =>
    by_cases h1 : p.1 = c
    · have h2 : ¬(p.1 = c') := by rw [h1]; exact fun he => h he.symm
      rw [List.filter_cons, if_neg (by simp [h1])]
      rw [List.find?_cons_of_neg _ (by simpa using h2)]
      exact ih
    · by_cases h2 : p.1 = c'
      · rw [List.filter_cons, if_pos (by simp [h1])]
        rw [List.find?_cons_of_pos _ (by simpa using h2),
          List.find?_cons_of_pos _ (by simpa using h2)]
      · rw [List.filter_cons, if_pos (by simp [h1])]
        rw [List.find?_cons_of_neg _ (by simpa using h2),
          List.find?_cons_of_neg _ (by simpa using h2)]
        exact ih

theorem find?_filter_self_key {α β : Type} [DecidableEq α] (l : List (α × β)) (c : α) :
    (l.filter (fun p => p.1 ≠ c)).find? (fun p => p.1 = c) = none := by
  apply List.find?_eq_none.mpr
  intro x hx
  have := (List.mem_filter.mp hx).2
  simpa using this

theorem lookupTask_setTaskEntry_self (m : List (Int × Nat)) (c : Int) (i : Nat) :
    lookupTask (setTaskEntry m c i) c = some i := by
  unfold lookupTask setTaskEntry
  rw [List.find?_cons_of_pos _ (by simp)]
  rfl

theorem lookupTask_setTaskEntry_ne (m : List (Int × Nat)) (c c' : Int) (i : Nat) (h : c' ≠ c) :
    lookupTask (setTaskEntry m c i) c' = lookupTask m c' := by
  unfold lookupTask setTaskEntry eraseTaskEntry
  rw [List.find?_cons_of_neg _ (by simp; exact fun he => h he.symm)]
  rw [find?_filter_ne_key _ _ _ h]

theorem lookupTask_eraseTaskEntry_ne (m : List (Int × Nat)) (c c' : Int) (h : c' ≠ c) :
    lookupTask (eraseTaskEntry m c) c' = lookupTask m c' := by
  simp only [lookupTask, eraseTaskEntry]
  rw [find?_filter_ne_key _ _ _ h]

theorem lookupPending_setPendingEntry_self (l : List (String × PendingReply)) (k : String) (v : PendingReply) :
    lookupPending (setPendingEntry l k v) k = some v := by
  unfold lookupPending setPendingEntry
  rw [List.find?_cons_of_pos _ (by simp)]
  rfl

theorem lookupPending_erasePendingEntry_self (l : List (String × PendingReply)) (k : String) :
    lookupPending (erasePendingEntry l k) k = none := by
  simp only [lookupPending, erasePendingEntry]
  rw [find?_filter_self_key]
  rfl

theorem cancelTask_length (l : List DTask) (i : Nat) : (cancelTask l i).length = l.length := by
  induction l generalizing i with
  | nil => rfl
  | cons t ts ih =>
    cases i with
    | zero => simp [cancelTask]
    | succ n => simp [cancelTask, ih]

theorem setStatus_length (l : List DTask) (i : Nat) (st : TaskStatus) :
    (setStatus l i st).length = l.length := by
  induction l generalizing i with
  | nil => rfl
  | cons t ts ih =>
    cases i with
    | zero => simp [setStatus]
    | succ n => simp [setStatus, ih]

theorem cancelTask_getElem? (l : List DTask) (i j : Nat) :
    (cancelTask l i)[j]? =
      if j = i then (l[j]?).map (fun t => { t with status := statusAfterCancel t.status })
      else l[j]? := by
  induction l generalizing i j with
  | nil => cases i <;> cases j <;> simp [cancelTask]
  | cons t ts ih =>
    cases i with
    | zero =>
      cases j with
      | zero => simp [cancelTask]
      | succ jj => simp [cancelTask]
    | succ ii =>
      cases j with
      | zero => simp [cancelTask]
      | succ jj =>
        simp only [cancelTask, List.getElem?_cons_succ, ih, Nat.succ.injEq]

theorem setStatus_getElem? (l : List DTask) (i j : Nat) (st : TaskStatus) :
    (setStatus l i st)[j]? =
      if j = i then (l[j]?).map (fun t => { t with status := st })
      else l[j]? := by
  induction l generalizing i j with
  | nil => cases i <;> cases j <;> simp [setStatus]
  | cons t ts ih =>
    cases i with
    | zero =>
      cases j with
      | zero => simp [setStatus]
      | succ jj => simp [setStatus]
    | succ ii =>
      cases j with
      | zero => simp [setStatus]
      | succ jj =>
        simp only [setStatus, List.getElem?_cons_succ, ih, Nat.succ.injEq]

theorem statusAfterCancel_not_live (st : TaskStatus) :
    statusAfterCancel st ≠ .sleeping ∧ statusAfterCancel st ≠ .processing := by
  cases st <;> simp [statusAfterCancel]

/-! ## The debounce invariant

A task is outstanding while it is sleeping or processing.  The invariant:
every outstanding task is exactly the one `debounce_tasks` registers for its
chat.  Uniqueness of the outstanding task per chat follows. -/

def TaskLive (t : DTask) : Prop := t.status = .sleeping ∨ t.status = .processing

def TaskInv (s : BotState) : Prop :=
  ∀ i t, s.tasks[i]? = some t → TaskLive t → lookupTask s.debounce_tasks t.chat = some i

theorem TaskInv_scheduleTask (s : BotState) (c : Int) (sn sid : String) (b : Option String)
    (h : TaskInv s) : TaskInv (scheduleTask s c sn sid b) := by
  intro i t hget hlive
  simp only [scheduleTask] at hget ⊢
  cases hl : lookupTask s.debounce_tasks c with
  | some k =>
    rw [hl] at hget
    dsimp only at hget
    rw [List.getElem?_append] at hget
    by_cases hi : i < (cancelTask s.tasks k).length
    · rw [if_pos hi] at hget
      rw [cancelTask_getElem?] at hget
      by_cases hik : i = k
      · rw [if_pos hik] at hget
        rcases Option.map_eq_some'.mp hget with ⟨t0, _, ht0⟩
        rcases hlive with hs | hs <;> rw [← ht0] at hs
        · exact absurd hs (statusAfterCancel_not_live t0.status).1
        · exact absurd hs (statusAfterCancel_not_live t0.status).2
      · rw [if_neg hik] at hget
        have hmap := h i t hget hlive
        by_cases hc : t.chat = c
        · rw [hc, hl] at hmap
          exact absurd (Option.some_injective _ hmap).symm hik
        · rw [lookupTask_setTaskEntry_ne _ _ _ _ hc]
          exact hmap
    · rw [if_neg hi] at hget
      cases hm : i - (cancelTask s.tasks k).length with
      | zero =>
        rw [hm] at hget
        simp only [List.getElem?_cons_zero, Option.some.injEq] at hget
        have hieq : i = (cancelTask s.tasks k).length := by omega
        rw [← hget]
        dsimp only
        rw [hieq]
        exact lookupTask_setTaskEntry_self _ _ _
      | succ mm =>
        rw [hm] at hget
        simp at hget
  | none =>
    rw [hl] at hget
    dsimp only at hget
    rw [List.getElem?_append] at hget
    by_cases hi : i < s.tasks.length
    · rw [if_pos hi] at hget
      have hmap := h i t hget hlive
      by_cases hc : t.chat = c
      · rw [hc, hl] at hmap
        exact absurd hmap (by simp)
      · rw [lookupTask_setTaskEntry_ne _ _ _ _ hc]
        exact hmap
    · rw [if_neg hi] at hget
      cases hm : i - s.tasks.length with
      | zero =>
        rw [hm] at hget
        simp only [List.getElem?_cons_zero, Option.some.injEq] at hget
        have hieq : i = s.tasks.length := by omega
        rw [← hget]
        dsimp only
        rw [hieq]
        exact lookupTask_setTaskEntry_self _ _ _
      | succ mm =>
        rw [hm] at hget
        simp at hget

theorem process_debounce_tasks (oracle : LLMOracle) (cfg : Config) (a b u : String) (p : Bool)
    (t : DTask) (s : BotState) :
    (process_chat_after_delay oracle cfg a b u p t s).debounce_tasks = s.debounce_tasks ∨
    (process_chat_after_delay oracle cfg a b u p t s).debounce_tasks = eraseTaskEntry s.debounce_tasks t.chat := by
  unfold process_chat_after_delay process_final_response
  dsimp only
  repeat' split
  all_goals first | exact Or.inl rfl | exact Or.inr rfl

theorem process_tasks_eq (oracle : LLMOracle) (cfg : Config) (a b u : String) (p : Bool)
    (t : DTask) (s : BotState) :
    (process_chat_after_delay oracle cfg a b u p t s).tasks = s.tasks := by
  unfold process_chat_after_delay process_final_response
  dsimp only
  repeat' split
  all_goals rfl

theorem process_chat_sends_eq (oracle : LLMOracle) (cfg : Config) (a b u : String) (p : Bool)
    (t : DTask) (s : BotState) :
    (process_chat_after_delay oracle cfg a b u p t s).chat_sends = s.chat_sends := by
  unfold process_chat_after_delay process_final_response
  dsimp only
  repeat' split
  all_goals rfl

theorem process_db_eq (oracle : LLMOracle) (cfg : Config) (a b u : String) (p : Bool)
    (t : DTask) (s : BotState) :
    (process_chat_after_delay oracle cfg a b u p t s).db = s.db := by
  unfold process_chat_after_delay process_final_response
  dsimp only
  repeat' split
  all_goals rfl

theorem button_tasks_eq (a : Bool) (f : Nat → Bool) (e d p : String) (s : BotState) :
    (button_handler a f e d p s).tasks = s.tasks ∧
    (button_handler a f e d p s).debounce_tasks = s.debounce_tasks := by
  unfold button_handler
  dsimp only
  repeat' split
  all_goals exact ⟨rfl, rfl⟩

theorem handle_rest_eq (myId : Int) (s : BotState) (m : TgMessage) :
    (handle_business_update myId s m).pending_replies = s.pending_replies ∧
    (handle_business_update myId s m).owner_msgs = s.owner_msgs ∧
    (handle_business_update myId s m).chat_sends = s.chat_sends ∧
    (handle_business_update myId s m).preview_edits = s.preview_edits := by
  unfold handle_business_update scheduleTask
  cases m.from_user with
  | none => exact ⟨rfl, rfl, rfl, rfl⟩
  | some sender =>
    dsimp only
    repeat' split
    all_goals exact ⟨rfl, rfl, rfl, rfl⟩

theorem TaskInv_mk_db (s : BotState) (x : List Row) (h : TaskInv s) :
    TaskInv { s with db := x } :=
  fun i t hget hlive => h i t hget hlive

theorem TaskInv_handle (myId : Int) (s : BotState) (m : TgMessage) (h : TaskInv s) :
    TaskInv (handle_business_update myId s m) := by
  unfold handle_business_update
  cases hm : m.from_user with
  | none => exact h
  | some sender =>
    dsimp only
    split
    · split
      · exact h
      · exact TaskInv_scheduleTask _ _ _ _ _ (TaskInv_mk_db _ _ h)
    · split
      · cases hl : lookupTask s.debounce_tasks m.chat.id with
        | some k =>
          intro i t hget hlive
          dsimp only at hget ⊢
          rw [cancelTask_getElem?] at hget
          by_cases hik : i = k
          · rw [if_pos hik] at hget
            rcases Option.map_eq_some'.mp hget with ⟨t0, _, ht0⟩
            rcases hlive with hs | hs <;> rw [← ht0] at hs
            · exact absurd hs (statusAfterCancel_not_live t0.status).1
            · exact absurd hs (statusAfterCancel_not_live t0.status).2
          · rw [if_neg hik] at hget
            have hmap := h i t hget hlive
            by_cases hc : t.chat = m.chat.id
            · rw [hc, hl] at hmap
              exact absurd (Option.some_injective _ hmap).symm hik
            · rw [lookupTask_eraseTaskEntry_ne _ _ _ hc]
              exact hmap
        | none => exact TaskInv_mk_db _ _ h
      · exact TaskInv_scheduleTask _ _ _ _ _ (TaskInv_mk_db _ _ h)

theorem TaskInv_wake (s : BotState) (i : Nat) (t : DTask)
    (hget : s.tasks[i]? = some t) (hst : t.status = .sleeping) (h : TaskInv s) :
    TaskInv { s with tasks := setStatus s.tasks i .processing } := by
  intro j t' hget' hlive'
  dsimp only at hget' ⊢
  rw [setStatus_getElem?] at hget'
  by_cases hji : j = i
  · rw [if_pos hji] at hget'
    rcases Option.map_eq_some'.mp hget' with ⟨t0, ht0get, ht0⟩
    subst hji
    have he : t = t0 := Option.some_injective _ (hget.symm.trans ht0get)
    subst he
    have := h j t hget (Or.inl hst)
    rw [← ht0]
    exact this
  · rw [if_neg hji] at hget'
    exact h j t' hget' hlive'

theorem TaskInv_finish (oracle : LLMOracle) (cfg : Config) (a b u : String) (p : Bool)
    (s : BotState) (i : Nat) (t : DTask)
    (hget : s.tasks[i]? = some t) (hst : t.status = .processing) (h : TaskInv s) :
    TaskInv { process_chat_after_delay oracle cfg a b u p t s with
              tasks := setStatus s.tasks i .done } := by
  intro j t' hget' hlive'
  dsimp only at hget' ⊢
  rw [setStatus_getElem?] at hget'
  by_cases hji : j = i
  · rw [if_pos hji] at hget'
    rcases Option.map_eq_some'.mp hget' with ⟨t0, ht0get, ht0⟩
    rcases hlive' with hs | hs <;> rw [← ht0] at hs <;> cases hs
  · rw [if_neg hji] at hget'
    have hmap := h j t' hget' hlive'
    rcases process_debounce_tasks oracle cfg a b u p t s with hd | hd
    · rw [hd]
      exact hmap
    · rw [hd]
      by_cases hc : t'.chat = t.chat
      · have hmi := h i t hget (Or.inr hst)
        rw [hc] at hmap
        exact absurd (Option.some_injective _ (hmap.symm.trans hmi)) hji
      · rw [lookupTask_eraseTaskEntry_ne _ _ _ hc]
        exact hmap

theorem TaskInv_button (a : Bool) (f : Nat → Bool) (e d p : String) (s : BotState)
    (h : TaskInv s) : TaskInv (button_handler a f e d p s) := by
  intro i t hget hlive
  rw [(button_tasks_eq a f e d p s).1] at hget
  rw [(button_tasks_eq a f e d p s).2]
  exact h i t hget hlive

theorem TaskInv_of_reachable (myId : Int) (oracle : LLMOracle) (cfg : Config) (s : BotState)
    (h : Reachable myId oracle cfg s) : TaskInv s := by
  induction h with
  | init =>
    intro i t hget hlive
    simp [initState] at hget
  | next _ hstep ih =>
    cases hstep with
    | recv m => exact TaskInv_handle _ _ _ ih
    | wake i t hget hst => exact TaskInv_wake _ _ _ hget hst ih
    | finish i t hget hst a b u p => exact TaskInv_finish _ _ _ _ _ _ _ _ _ hget hst ih
    | button a f e d p => exact TaskInv_button _ _ _ _ _ _ ih

/-! ## sendLoop lemmas -/

theorem sendLoop_sends_shape (c : Int) (fail : Nat → Bool) :
    ∀ (parts : List String) (i : Nat) (db : List Row) (out : List (Int × String)),
      ∃ ps, (sendLoop c fail i parts db out).sends = out ++ ps ∧
        ∀ x ∈ ps, x.1 = c ∧ x.2 ∈ parts := by
  intro parts
  induction parts with
  | nil =>
    intro i db out
    exact ⟨[], by simp [sendLoop], by simp⟩
  | cons p rest ih =>
    intro i db out
    unfold sendLoop
    split
    · exact ⟨[], by simp, by simp⟩
    · obtain ⟨ps, hps, hmem⟩ := ih (i + 1) (update_chat_history db c "model" p) (out ++ [(c, p)])
      refine ⟨(c, p) :: ps, ?_, ?_⟩
      · dsimp only
        rw [hps]
        simp
      · intro x hx
        rcases List.mem_cons.mp hx with hx | hx
        · subst hx
          exact ⟨rfl, List.mem_cons_self _ _⟩
        · exact ⟨(hmem x hx).1, List.mem_cons_of_mem _ (hmem x hx).2⟩

theorem sendLoop_all_ok (c : Int) (fail : Nat → Bool) (hf : ∀ i, fail i = false) :
    ∀ (parts : List String) (i : Nat) (db : List Row) (out : List (Int × String)),
      (sendLoop c fail i parts db out).sends = out ++ parts.map (fun p => (c, p)) ∧
      (sendLoop c fail i parts db out).sent_count = parts.length ∧
      (sendLoop c fail i parts db out).errored = false := by
  intro parts
  induction parts with
  | nil =>
    intro i db out
    simp [sendLoop]
  | cons p rest ih =>
    intro i db out
    unfold sendLoop
    rw [if_neg (by simp [hf i])]
    dsimp only
    obtain ⟨h1, h2, h3⟩ := ih (i + 1) (update_chat_history db c "model" p) (out ++ [(c, p)])
    refine ⟨?_, ?_, ?_⟩
    · rw [h1]
      simp
    · rw [h2]
      simp
    · exact h3

theorem sendLoop_stops (c : Int) (fail : Nat → Bool) :
    ∀ (k : Nat) (parts : List String) (i : Nat) (db : List Row) (out : List (Int × String)),
      (∀ j, j < k → fail (i + j) = false) → fail (i + k) = true → k < parts.length →
      (sendLoop c fail i parts db out).sends = out ++ (parts.take k).map (fun p => (c, p)) ∧
      (sendLoop c fail i parts db out).sent_count = k ∧
      (sendLoop c fail i parts db out).errored = true := by
  intro k
  induction k with
  | zero =>
    intro parts i db out hok hfail hlen
    cases parts with
    | nil => simp at hlen
    | cons p rest =>
      unfold sendLoop
      rw [if_pos (by simpa using hfail)]
      simp
  | succ kk ih =>
    intro parts i db out hok hfail hlen
    cases parts with
    | nil => simp at hlen
    | cons p rest =>
      unfold sendLoop
      rw [if_neg (by simp [(by simpa using hok 0 (Nat.succ_pos kk) : fail i = false)])]
      dsimp only
      obtain ⟨h1, h2, h3⟩ := ih rest (i + 1) (update_chat_history db c "model" p) (out ++ [(c, p)])
        (fun j hj => by
          have := hok (j + 1) (by omega)
          rw [show i + 1 + j = i + (j + 1) by omega]
          exact this)
        (by rw [show i + 1 + kk = i + (kk + 1) by omega]; exact hfail)
        (by simpa using Nat.lt_of_succ_lt_succ hlen)
      refine ⟨?_, ?_, ?_⟩
      · rw [h1]
        simp
      · rw [h2]
      · exact h3

/-! ## Callback-data helpers -/

theorem pyStartsWith_send (u : String) : pyStartsWith ("send_" ++ u) "send_" = true := by
  unfold pyStartsWith
  rw [ List.isPrefixOf_iff_prefix, String.data_append]
  exact List.prefix_append _ _

theorem pyDrop_send (u : String) : pyDrop ("send_" ++ u) 5 = u := by
  unfold pyDrop
  apply String.ext
  simp [String.data_append]

/-! ## Splitting text that has no separator occurrence -/

theorem pySplitGo_not_contains (sep : List Char) :
    ∀ (fuel : Nat) (l acc : List Char), isSubList sep l = false →
      pySplitGo sep fuel l acc = [acc.reverse ++ l] := by
  intro fuel
  induction fuel with
  | zero =>
    intro l acc _
    rfl
  | succ f ih =>
    intro l acc hno
    cases l with
    | nil => simp [pySplitGo]
    | cons ch rest =>
      unfold isSubList at hno
      rw [Bool.or_eq_false_iff] at hno
      unfold pySplitGo
      rw [if_neg (by simp [hno.1])]
      rw [ih rest (ch :: acc) hno.2]
      simp

theorem pySplitOn_not_contains (s sep : String) (hsep : sep.data ≠ [])
    (hno : containsSubstr s sep = false) : pySplitOn s sep = [s] := by
  unfold pySplitOn
  rw [if_neg hsep]
  rw [pySplitGo_not_contains sep.data s.data.length s.data [] hno]
  obtain ⟨l⟩ := s
  rfl

theorem splitNewMsg_no_marker (raw : String) (hno : containsSubstr raw "!NEWMSG!" = false)
    (hne : pystrip raw ≠ "") : splitNewMsg raw = [pystrip raw] := by
  unfold splitNewMsg
  rw [pySplitOn_not_contains raw "!NEWMSG!" (by decide) hno]
  simp [hne]

/-! ## Claim theorems -/

theorem enrich_pystrip_ne_empty (m : TgMessage) :
    pystrip (enrich_message_for_history m) ≠ "" := by
  obtain ⟨p, hp⟩ := enrich_message_for_history_shape m
  rw [hp]
  exact pystrip_ne_empty_of_mem (mem_data_append_marker p) (by decide)

/-- C7: for every Telegram message, `enrich_message_for_history` returns a
non-empty string that ends with the `###END_META_CONTEXT###` marker,
regardless of whether the message has text, a caption, media, reply
metadata, forward metadata, or none of these. -/
theorem C7_enrich_nonempty_marker_terminated (m : TgMessage) :
    (∃ p, enrich_message_for_history m = p ++ META_CONTEXT_END_MARKER) ∧
    enrich_message_for_history m ≠ "" := by
  obtain ⟨p, hp⟩ := enrich_message_for_history_shape m
  refine ⟨⟨p, hp⟩, ?_⟩
  rw [hp]
  exact append_marker_ne_empty p

/-- C5: the persisted message log is written by inserting one row per
message (every enriched message is non-empty, hence always inserted; the
stored content is the stripped text) and read back as the last
`MAX_HISTORY_PER_CHAT = 700` rows of the chat in time order, which
`get_formatted_history` returns oldest-first: the result is exactly the
length-at-most-700 suffix of the chat's rows in insertion (= time) order. -/
theorem C5_history_insert_and_readback :
    MAX_HISTORY_PER_CHAT = 700 ∧
    (∀ (db : List Row) (chat_id : Int) (role text : String),
      pystrip text ≠ "" →
      update_chat_history db chat_id role text = db ++ [⟨chat_id, role, pystrip text⟩]) ∧
    (∀ (db : List Row) (chat_id : Int) (role : String) (m : TgMessage),
      update_chat_history db chat_id role (enrich_message_for_history m) =
        db ++ [⟨chat_id, role, pystrip (enrich_message_for_history m)⟩]) ∧
    (∀ (db : List Row) (chat_id : Int),
      get_formatted_history db chat_id =
        ((db.filter (fun r => r.chat_id = chat_id)).drop
          ((db.filter (fun r => r.chat_id = chat_id)).length - MAX_HISTORY_PER_CHAT)).map
          (fun r => (r.role, r.content))) := by
  refine ⟨rfl, ?_, ?_, ?_⟩
  · intro db chat_id role text h
    unfold update_chat_history
    rw [if_neg h]
  · intro db chat_id role m
    unfold update_chat_history
    rw [if_neg (enrich_pystrip_ne_empty m)]
  · intro db chat_id
    unfold get_formatted_history
    dsimp only
    rw [List.take_reverse, List.reverse_reverse]

/-- Witness for C5 at concrete inputs. -/
theorem C5_witness :
    pystrip " hi " ≠ "" ∧
    update_chat_history [] 1 "user" " hi " = [⟨1, "user", "hi"⟩] :=
  ⟨by decide,
    by
      have h := C5_history_insert_and_readback.2.1 [] 1 "user" " hi " (by decide)
      rw [h]
      decide⟩

/-- C1 (code bug): `process_chat_after_delay` calls
`generate_gemini_response(contents_for_gemini)` with one argument
(src/main.py lines 247 and 301) while the function's definition (line 168)
has two parameters without defaults, so CPython raises `TypeError` at every
debounce expiry; the exception is swallowed by `delayed_processing` and the
run changes nothing: no draft is stored in `pending_replies`, no preview is
sent, and even the `debounce_tasks` cleanup at line 336 is skipped. -/
theorem C1_llm_call_typeerror_nothing_posted :
    generate_gemini_response_call_args < generate_gemini_response_required_params ∧
    ∀ (cfg : Config) (a b u : String) (p : Bool) (t : DTask) (s : BotState),
      process_chat_after_delay llm_call_as_written cfg a b u p t s = s := by
  constructor
  · decide
  · intro cfg a b u p t s
    rfl

theorem handle_incoming_spec (myId : Int) (s : BotState) (m : TgMessage) (u : TgUser)
    (hm : m.from_user = some u) (hne : u.id ≠ myId) :
    (∀ k t, lookupTask s.debounce_tasks m.chat.id = some k → s.tasks[k]? = some t →
      (handle_business_update myId s m).tasks[k]? =
        some { t with status := statusAfterCancel t.status }) ∧
    lookupTask (handle_business_update myId s m).debounce_tasks m.chat.id = some s.tasks.length ∧
    (∃ nt, (handle_business_update myId s m).tasks[s.tasks.length]? = some nt ∧
      nt.status = .sleeping ∧ nt.chat = m.chat.id) := by
  unfold handle_business_update
  rw [hm]
  dsimp only
  rw [if_neg (fun hand => hne hand.1), if_neg hne]
  unfold scheduleTask
  dsimp only
  refine ⟨?_, ?_, ?_⟩
  · intro k t hl hget
    rw [hl]
    dsimp only
    have hk : k < s.tasks.length := by
      by_contra hc
      rw [List.getElem?_eq_none (by omega)] at hget
      cases hget
    rw [List.getElem?_append, if_pos (by rw [cancelTask_length]; exact hk)]
    rw [cancelTask_getElem?, if_pos rfl, hget]
    rfl
  · cases hl : lookupTask s.debounce_tasks m.chat.id with
    | some k =>
      dsimp only
      rw [lookupTask_setTaskEntry_self, cancelTask_length]
    | none =>
      dsimp only
      rw [lookupTask_setTaskEntry_self]
  · cases hl : lookupTask s.debounce_tasks m.chat.id with
    | some k =>
      dsimp only
      refine ⟨⟨m.chat.id, pyOr u.first_name (pyOr u.full_name ("User_" ++ toString u.id)),
        toString u.id, m.business_connection_id, .sleeping⟩, ?_, rfl, rfl⟩
      rw [List.getElem?_append, if_neg (by rw [cancelTask_length]; omega)]
      rw [cancelTask_length, Nat.sub_self]
      rfl
    | none =>
      dsimp only
      refine ⟨⟨m.chat.id, pyOr u.first_name (pyOr u.full_name ("User_" ++ toString u.id)),
        toString u.id, m.business_connection_id, .sleeping⟩, ?_, rfl, rfl⟩
      rw [List.getElem?_append, if_neg (by omega), Nat.sub_self]
      rfl

/-- C2: in every reachable state there is at most one outstanding
(sleeping-or-processing) debounce task per chat — the one `debounce_tasks`
maps that chat to — and every incoming business message from a non-owner
sender cancels the task currently registered for its chat (if any) and
replaces it in `debounce_tasks` with a freshly created sleeping task. -/
theorem C2_one_outstanding_task_per_chat :
    ∀ (myId : Int) (oracle : LLMOracle) (cfg : Config) (s : BotState),
      Reachable myId oracle cfg s →
      (∀ (i j : Nat) (ti tj : DTask), s.tasks[i]? = some ti → s.tasks[j]? = some tj →
        TaskLive ti → TaskLive tj → ti.chat = tj.chat → i = j) ∧
      (∀ (m : TgMessage) (u : TgUser), m.from_user = some u → u.id ≠ myId →
        (∀ k t, lookupTask s.debounce_tasks m.chat.id = some k → s.tasks[k]? = some t →
          (handle_business_update myId s m).tasks[k]? =
            some { t with status := statusAfterCancel t.status }) ∧
        lookupTask (handle_business_update myId s m).debounce_tasks m.chat.id =
          some s.tasks.length ∧
        (∃ nt, (handle_business_update myId s m).tasks[s.tasks.length]? = some nt ∧
          nt.status = .sleeping ∧ nt.chat = m.chat.id)) := by
  intro myId oracle cfg s hreach
  constructor
  · intro i j ti tj hgi hgj hli hlj hchat
    have hinv := TaskInv_of_reachable myId oracle cfg s hreach
    have h1 := hinv i ti hgi hli
    have h2 := hinv j tj hgj hlj
    rw [hchat] at h1
    exact Option.some_injective _ (h1.symm.trans h2)
  · intro m u hm hne
    exact handle_incoming_spec myId s m u hm hne

/-- C3: drafts reach a business chat only through the approval path.  Every
event-loop step either leaves `chat_sends` unchanged (in particular the
debounce task that produced a draft only stores it in `pending_replies` and
messages the owner), or it is a button-press step that pops a stored pending
draft: it appends only parts of that draft's text, addressed to that draft's
chat, and consumes the UUID. -/
theorem C3_sends_only_via_approval :
    ∀ (myId : Int) (oracle : LLMOracle) (cfg : Config) (s s' : BotState),
      Step myId oracle cfg s s' →
      s'.chat_sends = s.chat_sends ∨
      ∃ (uuid : String) (entry : PendingReply) (ps : List (Int × String)),
        lookupPending s.pending_replies uuid = some entry ∧
        s'.chat_sends = s.chat_sends ++ ps ∧
        (∀ x ∈ ps, x.1 = entry.chat_id ∧ x.2 ∈ splitNewMsg entry.text) ∧
        lookupPending s'.pending_replies uuid = none := by
  intro myId oracle cfg s s' hstep
  cases hstep with
  | recv m => exact Or.inl (handle_rest_eq myId s m).2.2.1
  | wake i t hget hst => exact Or.inl rfl
  | finish i t hget hst a b u p => exact Or.inl (process_chat_sends_eq oracle cfg a b u p t s)
  | button a f e d p =>
    unfold button_handler
    split
    · exact Or.inl rfl
    · split
      · exact Or.inl rfl
      · dsimp only
        cases hlook : lookupPending s.pending_replies (pyDrop d 5) with
        | none => exact Or.inl rfl
        | some entry =>
          dsimp only
          split
          · exact Or.inl rfl
          · split
            · exact Or.inl rfl
            · obtain ⟨ps, hps, hmem⟩ :=
                sendLoop_sends_shape entry.chat_id f (splitNewMsg entry.text) 0 s.db s.chat_sends
              refine Or.inr ⟨pyDrop d 5, entry, ps, hlook, ?_, hmem, ?_⟩
              · exact hps
              · exact lookupPending_erasePendingEntry_self _ _

def mW : TgMessage :=
  { chat := ⟨5, "", "", ""⟩, from_user := some ⟨7, "алиса", ""⟩,
    business_connection_id := some "bc", text := "привет", caption := "",
    reply_to_message := none, forward_from := none, forward_from_chat := none,
    forward_from_message_id := none, forward_sender_name := "", photo := false,
    video := false, audio := none, voice := false, document := none, sticker := none }

/-- Witness for C2 at a concrete reachable state and incoming message. -/
theorem C2_witness :
    lookupTask (handle_business_update 99 initState mW).debounce_tasks 5 = some 0 ∧
    (∃ nt, (handle_business_update 99 initState mW).tasks[0]? = some nt ∧
      nt.status = .sleeping ∧ nt.chat = 5) := by
  have h := (C2_one_outstanding_task_per_chat 99 (fun _ => LLMRes.ret none) ⟨"", "", "", []⟩
    initState Reachable.init).2 mW ⟨7, "алиса", ""⟩ rfl (by decide)
  exact ⟨h.2.1, h.2.2⟩

/-- Witness for C3 at a concrete step. -/
theorem C3_witness :
    (handle_business_update 99 initState mW).chat_sends = initState.chat_sends ∨
    ∃ (uuid : String) (entry : PendingReply) (ps : List (Int × String)),
      lookupPending initState.pending_replies uuid = some entry ∧
      (handle_business_update 99 initState mW).chat_sends = initState.chat_sends ++ ps ∧
      (∀ x ∈ ps, x.1 = entry.chat_id ∧ x.2 ∈ splitNewMsg entry.text) ∧
      lookupPending (handle_business_update 99 initState mW).pending_replies uuid = none :=
  C3_sends_only_via_approval 99 (fun _ => LLMRes.ret none) ⟨"", "", "", []⟩ initState
    (handle_business_update 99 initState mW) (Step.recv initState mW)

/-- C8: each pending-reply UUID is delivered at most once: the first press
pops the entry before sending, so a second press of the same approve button
finds nothing, sends nothing into the target chat, stores nothing, and only
edits the preview message with the not-found error note. -/
theorem C8_pending_uuid_at_most_once :
    ∀ (s : BotState) (uuid : String) (entry : PendingReply) (f : Nat → Bool) (e p : String),
      lookupPending s.pending_replies uuid = some entry →
      lookupPending (button_handler true f e ("send_" ++ uuid) p s).pending_replies uuid = none ∧
      (∀ (s2 : BotState) (f2 : Nat → Bool) (e2 p2 : String),
        lookupPending s2.pending_replies uuid = none →
        (button_handler true f2 e2 ("send_" ++ uuid) p2 s2).chat_sends = s2.chat_sends ∧
        (button_handler true f2 e2 ("send_" ++ uuid) p2 s2).db = s2.db ∧
        (button_handler true f2 e2 ("send_" ++ uuid) p2 s2).pending_replies = s2.pending_replies ∧
        (button_handler true f2 e2 ("send_" ++ uuid) p2 s2).preview_edits =
          s2.preview_edits ++ [p2 ++ "\n\n<b>⚠️ Ошибка:</b> Ответ не найден."]) := by
  intro s uuid entry f e p hlook
  constructor
  · unfold button_handler
    rw [if_neg (by simp), if_neg (by simp [pyStartsWith_send]), pyDrop_send]
    dsimp only
    rw [hlook]
    dsimp only
    split
    · exact lookupPending_erasePendingEntry_self _ _
    · split
      · exact lookupPending_erasePendingEntry_self _ _
      · exact lookupPending_erasePendingEntry_self _ _
  · intro s2 f2 e2 p2 hnone
    unfold button_handler
    rw [if_neg (by simp), if_neg (by simp [pyStartsWith_send]), pyDrop_send]
    dsimp only
    rw [hnone]
    exact ⟨rfl, rfl, rfl, rfl⟩

def sPend : BotState := ⟨[], [], [], [("u1", ⟨"a!NEWMSG!b", some "bc", 5⟩)], [], [], []⟩

/-- Witness for C8: pressing the same approve button twice on a concrete
state. -/
theorem C8_witness :
    lookupPending (button_handler true (fun _ => false) "" ("send_" ++ "u1") "p" sPend).pending_replies "u1" = none ∧
    (button_handler true (fun _ => false) "" ("send_" ++ "u1") "p2"
        (button_handler true (fun _ => false) "" ("send_" ++ "u1") "p" sPend)).chat_sends =
      (button_handler true (fun _ => false) "" ("send_" ++ "u1") "p" sPend).chat_sends := by
  have h := C8_pending_uuid_at_most_once sPend "u1" ⟨"a!NEWMSG!b", some "bc", 5⟩
    (fun _ => false) "" "p" (by decide)
  exact ⟨h.1, (h.2 _ (fun _ => false) "" "p2" h.1).1⟩

/-- C6: LLM and send errors are caught with no retry.  `generate_gemini_response`
returns `None` when the call raises, when the response has no parts
(including the blocked/prompt-feedback case), when the joined text strips to
empty, and when it contains a refusal phrase; a debounce run whose LLM call
returns `None` drops the draft (no pending reply, no preview, no send).  A
failing part send stops the loop at that part with no retry: exactly the
parts before it were sent, and the failure is reported by editing the
preview message with the error note. -/
theorem C6_errors_logged_and_dropped :
    (∀ (ini : Bool) (c : List GContent) (sp msg : String),
      generate_gemini_response ini c sp (.raised msg) = none) ∧
    (∀ (ini : Bool) (c : List GContent) (sp : String) (fb : Option String),
      generate_gemini_response ini c sp (.success [] fb) = none) ∧
    (∀ (ini : Bool) (c : List GContent) (sp : String) (parts : List String) (fb : Option String),
      pystrip (String.join parts) = "" →
      generate_gemini_response ini c sp (.success parts fb) = none) ∧
    (∀ (ini : Bool) (c : List GContent) (sp : String) (parts : List String) (fb : Option String),
      containsSubstr (pyLower (pystrip (String.join parts))) "cannot fulfill" = true ∨
      containsSubstr (pyLower (pystrip (String.join parts))) "unable to process" = true →
      generate_gemini_response ini c sp (.success parts fb) = none) ∧
    (∀ (oracle : LLMOracle) (cfg : Config) (a b u : String) (p : Bool) (t : DTask) (s : BotState),
      oracle (contents_for_gemini cfg t.sender_name t.sender_id_str a
        (get_formatted_history s.db t.chat)) = .ret none →
      (process_chat_after_delay oracle cfg a b u p t s).pending_replies = s.pending_replies ∧
      (process_chat_after_delay oracle cfg a b u p t s).owner_msgs = s.owner_msgs ∧
      (process_chat_after_delay oracle cfg a b u p t s).chat_sends = s.chat_sends) ∧
    (∀ (s : BotState) (uuid : String) (entry : PendingReply) (fail : Nat → Bool)
        (err preview : String) (k : Nat),
      lookupPending s.pending_replies uuid = some entry →
      entry.text ≠ "" →
      (∀ j, j < k → fail j = false) → fail k = true → k < (splitNewMsg entry.text).length →
      (button_handler true fail err ("send_" ++ uuid) preview s).chat_sends =
        s.chat_sends ++ ((splitNewMsg entry.text).take k).map (fun q => (entry.chat_id, q)) ∧
      (button_handler true fail err ("send_" ++ uuid) preview s).preview_edits =
        s.preview_edits ++ [preview ++ send_error_note k (splitNewMsg entry.text).length err]) := by
  refine ⟨?_, ?_, ?_, ?_, ?_, ?_⟩
  · intro ini c sp msg
    unfold generate_gemini_response
    dsimp only
    repeat' split
    all_goals rfl
  · intro ini c sp fb
    unfold generate_gemini_response
    dsimp only
    repeat' split
    all_goals first | rfl | simp_all
  · intro ini c sp parts fb hempty
    unfold generate_gemini_response
    dsimp only
    repeat' split
    all_goals first | rfl | simp_all
  · intro ini c sp parts fb href
    rcases href with h | h <;>
      (unfold generate_gemini_response
       dsimp only
       repeat' split
       all_goals first | rfl | simp_all)
  · intro oracle cfg a b u p t s horacle
    unfold process_chat_after_delay
    dsimp only
    rw [horacle]
    dsimp only
    rw [if_neg (by simp)]
    unfold process_final_response
    dsimp only
    exact ⟨rfl, rfl, rfl⟩
  · intro s uuid entry fail err preview k hlook htext hok hfail hk
    have hparts : splitNewMsg entry.text ≠ [] := by
      intro hnil
      rw [hnil] at hk
      simp at hk
    unfold button_handler
    rw [if_neg (by simp), if_neg (by simp [pyStartsWith_send]), pyDrop_send]
    dsimp only
    rw [hlook]
    dsimp only
    rw [if_neg htext, if_neg hparts]
    obtain ⟨h1, h2, h3⟩ := sendLoop_stops entry.chat_id fail k (splitNewMsg entry.text) 0
      s.db s.chat_sends (fun j hj => by simpa using hok j hj) (by simpa using hfail) hk
    constructor
    · exact h1
    · rw [if_pos h3, h2]

/-- Witness for C6 at concrete inputs: a raised call returns `None`, and a
press whose first part send fails sends nothing and reports the failure. -/
theorem C6_witness :
    generate_gemini_response true [("user", "hi")] "" (.raised "boom") = none ∧
    (button_handler true (fun _ => true) "err" ("send_" ++ "u1") "p" sPend).chat_sends =
      sPend.chat_sends ++ [] ∧
    (button_handler true (fun _ => true) "err" ("send_" ++ "u1") "p" sPend).preview_edits =
      sPend.preview_edits ++ ["p" ++ send_error_note 0 (splitNewMsg "a!NEWMSG!b").length "err"] := by
  have hgen := C6_errors_logged_and_dropped.1 true [("user", "hi")] "" "boom"
  have hbtn := C6_errors_logged_and_dropped.2.2.2.2.2 sPend "u1" ⟨"a!NEWMSG!b", some "bc", 5⟩
    (fun _ => true) "err" "p" 0 (by decide) (by decide)
    (fun j hj => absurd hj (Nat.not_lt_zero j)) rfl (by decide)
  exact ⟨hgen, hbtn.1, hbtn.2⟩

/-- C4 (amended): on approval, the sequence of texts sent into the target
chat is exactly the stored sanitized draft split on `"!NEWMSG!"`, each part
stripped and empty parts dropped (assuming all sends succeed); when the
draft contains no `"!NEWMSG!"`, the single sent text is the stripped
draft itself. -/
theorem C4_sent_parts_equal_stored_draft :
    ∀ (s : BotState) (uuid : String) (entry : PendingReply) (fail : Nat → Bool)
      (err preview : String),
      lookupPending s.pending_replies uuid = some entry →
      entry.text ≠ "" →
      splitNewMsg entry.text ≠ [] →
      (∀ i, fail i = false) →
      (button_handler true fail err ("send_" ++ uuid) preview s).chat_sends =
        s.chat_sends ++ (splitNewMsg entry.text).map (fun q => (entry.chat_id, q)) ∧
      (containsSubstr entry.text "!NEWMSG!" = false → pystrip entry.text ≠ "" →
        (button_handler true fail err ("send_" ++ uuid) preview s).chat_sends =
          s.chat_sends ++ [(entry.chat_id, pystrip entry.text)]) := by
  intro s uuid entry fail err preview hlook htext hparts hfail
  have hmain : (button_handler true fail err ("send_" ++ uuid) preview s).chat_sends =
      s.chat_sends ++ (splitNewMsg entry.text).map (fun q => (entry.chat_id, q)) := by
    unfold button_handler
    rw [if_neg (by simp), if_neg (by simp [pyStartsWith_send]), pyDrop_send]
    dsimp only
    rw [hlook]
    dsimp only
    rw [if_neg htext, if_neg hparts]
    exact (sendLoop_all_ok entry.chat_id fail hfail (splitNewMsg entry.text) 0 s.db s.chat_sends).1
  refine ⟨hmain, ?_⟩
  intro hno hstrip
  rw [hmain, splitNewMsg_no_marker entry.text hno hstrip]
  rfl

def cfgW : Config := ⟨"", "", "", []⟩

def tW : DTask := ⟨5, "алиса", "7", some "bc", .processing⟩

def sTask : BotState := ⟨[tW], [(5, 0)], [], [], [], [], []⟩

/-- Counterexample for C4 as stated: the LLM returns `"a!NEWMSG!b"`, which
is what gets stored as the pending draft, but the approve press sends the
two texts `"a"` and `"b"`; neither any sent text nor their concatenation
equals the text the LLM returned. -/
theorem C4_counterexample :
    lookupPending (process_chat_after_delay (fun _ => LLMRes.ret (some "a!NEWMSG!b")) cfgW
        "t" "cal" "u1" true tW sTask).pending_replies "u1" =
      some ⟨"a!NEWMSG!b", some "bc", 5⟩ ∧
    (button_handler true (fun _ => false) "" ("send_" ++ "u1") "p" sPend).chat_sends =
      [(5, "a"), (5, "b")] ∧
    pyIntercalate "" ["a", "b"] ≠ "a!NEWMSG!b" ∧
    ("a" : String) ≠ "a!NEWMSG!b" ∧ ("b" : String) ≠ "a!NEWMSG!b" := by
  refine ⟨by decide, by decide, by decide, by decide, by decide⟩

/-- Witness for C4 (amended) at a concrete pending reply. -/
theorem C4_witness :
    (button_handler true (fun _ => false) "" ("send_" ++ "u1") "p" sPend).chat_sends =
      sPend.chat_sends ++ (splitNewMsg "a!NEWMSG!b").map (fun q => ((5 : Int), q)) := by
  have h := C4_sent_parts_equal_stored_draft sPend "u1" ⟨"a!NEWMSG!b", some "bc", 5⟩
    (fun _ => false) "" "p" (by decide) (by decide) (by decide) (fun i => rfl)
  exact h.1
